import Mathlib

/-!
# Verification of the DarkraiBot plugin manager

A shallow embedding of `src/bot/utils/plugin_manager.py`.

The `PluginManager` keeps an in-memory table `self.plugins : Dict[str, PluginInfo]`.
We model the table as an association list `Table := List (String × PluginInfo)`
with Python-dict semantics: assignment replaces the value at an existing key in
place and appends a new key at the end; lookup finds the (unique in practice)
binding.

External effects are made explicit parameters:
* `bot.load_extension` / `bot.unload_extension` / `bot.reload_extension`
  (the HostRuntime of the specification) either complete or raise; each call's
  outcome is a parameter `Option String` (`none` = completed, `some msg` =
  raised an exception rendered as `msg`).
* `datetime.utcnow()` is a parameter `now : Nat`.
* `save_registry` writes a JSON file; we record whether it was invoked in the
  `saved` flag of each operation's result, and model the written payload with
  `save_registry_data`.
* reading a file yields `Option String` (`none` = the read raised).
-/

set_option autoImplicit false

namespace DarkraiBot

/-- The metadata dictionary built by `PluginManager._load_plugin_metadata`.
The recognized key set is closed (`name`, `version`, `author`, `description`,
`dependencies`, `required_permissions`), so we use a fixed-shape record of
optional fields; a `none` field models an absent dictionary key. -/
structure Metadata where
  mname : Option String := none
  version : Option String := none
  author : Option String := none
  description : Option String := none
  dependencies : Option (List String) := none
  required_permissions : Option String := none
deriving DecidableEq

/-- The empty metadata dictionary `{}`. -/
def Metadata.empty : Metadata := {}

/-- `PluginInfo.__init__`: `loaded = False`, `load_time = None`, `error = None`.
`load_time` (a `datetime`) is modelled as an abstract timestamp `Nat`; `error`
(an exception object) as its rendered message `String`. -/
structure PluginInfo where
  name : String
  path : String
  metadata : Metadata
  loaded : Bool
  load_time : Option Nat
  error : Option String
deriving DecidableEq

/-- `PluginInfo(name, path, metadata)`: fresh descriptor, not loaded, no
load time, no error (`metadata or {}` leaves an empty dict as is). -/
def mkPluginInfo (name path : String) (metadata : Metadata) : PluginInfo :=
  { name := name, path := path, metadata := metadata,
    loaded := false, load_time := none, error := none }

/-- The manager's in-memory table `self.plugins`. -/
abbrev Table : Type := List (String × PluginInfo)

/-- The key set of the table (`self.plugins.keys()`), as an ordered list. -/
def keysOf (t : Table) : List String := t.map Prod.fst

/-- Dict read `self.plugins.get(k)` / `self.plugins[k]`: first binding wins
(bindings are unique in any table the manager builds). -/
def lookupA : Table → String → Option PluginInfo
  | [], _ => none
  | (k', v) :: rest, k => if k' = k then some v else lookupA rest k

/-- Dict write `self.plugins[k] = v`: replace in place if the key exists,
append otherwise. -/
def insertA : Table → String → PluginInfo → Table
  | [], k, v => [(k, v)]
  | (k', v') :: rest, k, v =>
      if k' = k then (k, v) :: rest else (k', v') :: insertA rest k v

section InsertFoldDefs

/-!
Both `discover_plugins` and `load_registry` are loops of the shape
`for entry in source: self.plugins[key(entry)] = value(entry)`, i.e. a left
fold of dict writes whose written value depends only on the entry. `insStep`
and `insFold` name that shape generically in the entry type and in the
`key`/`value` projections, so the loop lemmas can be shared.
-/

variable {α : Type} (key : α → String) (val : α → PluginInfo)

/-- One iteration of the write loop. -/
def insStep (t : Table) (x : α) : Table := insertA t (key x) (val x)

/-- The whole write loop. -/
def insFold (t : Table) (l : List α) : Table := l.foldl (insStep key val) t

end InsertFoldDefs

/-!
## Python string primitives

The metadata extractor uses four `str` methods: `.strip()`, `.startswith(p)`,
`.split(sep)` for a one-character separator (the source only splits on `","`
and `"\n"`), and the tail `line.split(":", 1)[1]` of a line known to start
with a colon-terminated prefix (equal to dropping that prefix). They are
embedded here directly on the character list of the string.
-/

/-- Python `s.strip()`: remove leading and trailing whitespace. -/
def pyStrip (s : String) : String :=
  String.mk (((s.data.dropWhile Char.isWhitespace).reverse.dropWhile
    Char.isWhitespace).reverse)

/-- Python `s.startswith(p)`. -/
def pyStartsWith (s p : String) : Bool := p.data.isPrefixOf s.data

/-- Helper for `splitChar`: accumulate the current piece (reversed). -/
def splitCharAux (sep : Char) : List Char → List Char → List String
  | [], acc => [String.mk acc.reverse]
  | c :: cs, acc =>
      if c = sep then String.mk acc.reverse :: splitCharAux sep cs []
      else splitCharAux sep cs (c :: acc)

/-- Python `s.split(sep)` for a one-character separator: pieces between
separator occurrences, empty pieces kept (`"".split(",") == [""]`). -/
def splitChar (sep : Char) (s : String) : List String := splitCharAux sep s.data []

/-- Python `s[n:]` on character index `n` (used for the text after a
recognized prefix). -/
def pyDrop (s : String) (n : Nat) : String := String.mk (s.data.drop n)

/-!
## `PluginManager._load_plugin_metadata`

The body reads the file, splits it into lines, and scans the first 50 lines
for recognized `# Key:` prefixes, each setting one dictionary entry from
`line.split(":", 1)[1].strip()`. A failed read is caught and the metadata
built so far (the initial empty dict) is returned; string processing itself
cannot raise, so the function is total.
-/

/-- One iteration of the scanning loop of `_load_plugin_metadata`: strip the
line, test the recognized prefixes in source order, update the dict. For a
line that starts with a recognized prefix, `line.split(":", 1)[1]` is the text
after that prefix, because the prefix's trailing colon is the line's first
colon. -/
def processLine (md : Metadata) (raw : String) : Metadata :=
  let line := pyStrip raw
  if pyStartsWith line "# Plugin:" then
    { md with mname := some (pyStrip (pyDrop line "# Plugin:".length)) }
  else if pyStartsWith line "# Version:" then
    { md with version := some (pyStrip (pyDrop line "# Version:".length)) }
  else if pyStartsWith line "# Author:" then
    { md with author := some (pyStrip (pyDrop line "# Author:".length)) }
  else if pyStartsWith line "# Description:" then
    { md with description := some (pyStrip (pyDrop line "# Description:".length)) }
  else if pyStartsWith line "# Dependencies:" then
    let deps := pyStrip (pyDrop line "# Dependencies:".length)
    let parsed := ((splitChar ',' deps).map pyStrip).filter (fun d => d ≠ "")
    { md with dependencies := some parsed }
  else if pyStartsWith line "# Permissions:" then
    let perm := pyStrip (pyDrop line "# Permissions:".length)
    { md with required_permissions := some perm }
  else md

/-- `line.strip()` starts with one of the six recognized metadata prefixes. -/
def recognizedLine (raw : String) : Bool :=
  let line := pyStrip raw
  pyStartsWith line "# Plugin:" || pyStartsWith line "# Version:" ||
  pyStartsWith line "# Author:" || pyStartsWith line "# Description:" ||
  pyStartsWith line "# Dependencies:" || pyStartsWith line "# Permissions:"

/-- `PluginManager._load_plugin_metadata` (leading underscore dropped for
Lean). The argument is the outcome of reading the plugin file: `none` models
a read that raised (caught; empty metadata returned), `some content` the
file's text. -/
def load_plugin_metadata : Option String → Metadata
  | none => Metadata.empty
  | some content => ((splitChar '\n' content).take 50).foldl processLine Metadata.empty

/-!
## `PluginManager.discover_plugins`

The filesystem scan produces, per eligible `*.py` file, the triple
`(plugin_name, module_name, metadata)`; the loop body then runs
`self.plugins[plugin_name] = PluginInfo(name, path, metadata)`. We take the
scan's output list as the parameter and embed the loop.
-/

/-- One eligible file of the directory scan: stem, derived module path, and
the metadata extracted from the file. -/
structure DiscoveredEntry where
  name : String
  modPath : String
  metadata : Metadata
deriving DecidableEq

/-- `PluginManager.discover_plugins`, as a function of the scan result:
each discovered entry overwrites `self.plugins[name]` with a freshly
constructed `PluginInfo` (so `loaded`, `load_time` and `error` are the
`__init__` defaults). Returns the updated table; the method's returned
descriptor list is the image of `found` under that construction and is not
needed by the claims. -/
def discover_plugins (plugins : Table) (found : List DiscoveredEntry) : Table :=
  found.foldl
    (fun t e => insertA t e.name (mkPluginInfo e.name e.modPath e.metadata)) plugins

/-!
## Lifecycle operations

`load_plugin`, `unload_plugin` and `reload_plugin` are `async` methods whose
only awaited effects are the HostRuntime calls
(`bot.load_extension` / `bot.unload_extension` / `bot.reload_extension`) and
`save_registry`. Each HostRuntime call either completes or raises; its outcome
is a parameter `Option String` (`none` = completed, `some e` = raised, with
`e` the exception's text). `save_registry` never raises (it catches
internally); the `saved` field records whether it was invoked.
-/

/-- Result of one manager operation: the table afterwards, the returned
boolean, and whether `save_registry` was invoked during the call. -/
structure OpResult where
  table : Table
  ok : Bool
  saved : Bool
deriving DecidableEq

/-- `PluginManager.unload_plugin`. No `loaded` guard: the HostRuntime
deactivation is attempted whenever the name is known. On completion:
`loaded := False`, `error := None`, save, return `True`. On exception:
`error := e` only (`loaded` untouched), no save, return `False`. -/
def unload_plugin (plugins : Table) (plugin_name : String)
    (hostUnload : Option String) : OpResult :=
  match lookupA plugins plugin_name with
  | none => ⟨plugins, false, false⟩
  | some pi =>
    match hostUnload with
    | none =>
        ⟨insertA plugins plugin_name { pi with loaded := false, error := none },
          true, true⟩
    | some e =>
        ⟨insertA plugins plugin_name { pi with error := some e }, false, false⟩

/-- `PluginManager.load_plugin`. No already-`loaded` guard: after the optional
`reload`-flagged unload, `bot.load_extension` is always attempted. The Python
`plugin_info` local aliases the dict entry, so after the inner
`unload_plugin` call we re-read the binding before the remaining mutations.
On completion: `loaded := True`, `load_time := now`, `error := None`, save,
return `True`. On exception: `error := e`, `loaded := False`, no save, return
`False` (the registry was saved during the call only if the inner unload
saved it). -/
def load_plugin (plugins : Table) (plugin_name : String) (rld : Bool)
    (hostUnload hostLoad : Option String) (now : Nat) : OpResult :=
  match lookupA plugins plugin_name with
  | none => ⟨plugins, false, false⟩
  | some pi =>
    let afterUnload : Table × Bool :=
      if rld && pi.loaded then
        let u := unload_plugin plugins plugin_name hostUnload
        (u.table, u.saved)
      else (plugins, false)
    match lookupA afterUnload.1 plugin_name with
    | none => ⟨afterUnload.1, false, afterUnload.2⟩
    | some pi' =>
      match hostLoad with
      | none =>
          ⟨insertA afterUnload.1 plugin_name
              { pi' with loaded := true, load_time := some now, error := none },
            true, true⟩
      | some e =>
          ⟨insertA afterUnload.1 plugin_name
              { pi' with error := some e, loaded := false },
            false, afterUnload.2⟩

/-- `PluginManager.reload_plugin`: one `bot.reload_extension` attempt. On
completion the success path is identical to `load_plugin`'s. On exception only
`error := e` is assigned — the `except` block does not touch `loaded`. -/
def reload_plugin (plugins : Table) (plugin_name : String)
    (hostReload : Option String) (now : Nat) : OpResult :=
  match lookupA plugins plugin_name with
  | none => ⟨plugins, false, false⟩
  | some pi =>
    match hostReload with
    | none =>
        ⟨insertA plugins plugin_name
            { pi with loaded := true, load_time := some now, error := none },
          true, true⟩
    | some e =>
        ⟨insertA plugins plugin_name { pi with error := some e }, false, false⟩

/-!
## Registry persistence

`save_registry` serializes `{name: plugin.to_dict() for name, plugin in
self.plugins.items()}`; `load_registry` rebuilds `self.plugins` from the
parsed document. `load_time` is persisted via ISO string and re-parsed with
`fromisoformat` (an injective round trip, modelled by keeping the timestamp),
`error` via `str(...)` (already a string in the model).
-/

/-- One persisted descriptor, the image of `PluginInfo.to_dict`. -/
structure SavedPlugin where
  name : String
  path : String
  metadata : Metadata
  loaded : Bool
  load_time : Option Nat
  error : Option String
deriving DecidableEq

/-- `PluginInfo.to_dict`. -/
def to_dict (pi : PluginInfo) : SavedPlugin :=
  ⟨pi.name, pi.path, pi.metadata, pi.loaded, pi.load_time, pi.error⟩

/-- The `plugins` object `save_registry` writes: every table entry, keyed as
in the table, serialized with `to_dict`. -/
def save_registry_data (plugins : Table) : List (String × SavedPlugin) :=
  plugins.map (fun x => (x.1, to_dict x.2))

/-- The descriptor `load_registry` rebuilds from one persisted entry:
`PluginInfo(name, path, metadata)` then `loaded = False` explicitly and
`load_time` restored when present. The persisted `error` is never read, so
the rebuilt descriptor keeps the `__init__` default `error = None`. -/
def restore_plugin (pd : SavedPlugin) : PluginInfo :=
  { name := pd.name, path := pd.path, metadata := pd.metadata,
    loaded := false, load_time := pd.load_time, error := none }

/-- `PluginManager.load_registry`, as a function of the parsed document's
`plugins` entries. `none` models a missing registry file or a failed
read/parse (caught; the table is left as it was). -/
def load_registry (plugins : Table) (data : Option (List (String × SavedPlugin))) :
    Table :=
  match data with
  | none => plugins
  | some entries =>
      entries.foldl (fun t x => insertA t x.1 (restore_plugin x.2)) plugins

/-!
## Queries
-/

/-- `PluginManager.check_dependencies`: empty when the name is unknown or
`metadata.get("dependencies")` is falsy (absent or the empty list); otherwise
the declared dependencies that are absent from the table or present but not
loaded. -/
def check_dependencies (plugins : Table) (plugin_name : String) : List String :=
  match lookupA plugins plugin_name with
  | none => []
  | some pi =>
    match pi.metadata.dependencies with
    | none => []
    | some [] => []
    | some deps =>
        deps.filter (fun dep =>
          match lookupA plugins dep with
          | none => true
          | some p => !p.loaded)

/-- Written from the specification's words, for comparison with
`check_dependencies`: the declared dependency names (none for an unknown name
or a missing declaration), filtered to those that are absent from the table
or present but not loaded. Non-transitive by construction: only the named
plugin's own declaration is consulted. -/
def check_dependencies_spec (plugins : Table) (plugin_name : String) : List String :=
  let declared : List String :=
    match lookupA plugins plugin_name with
    | none => []
    | some pi => pi.metadata.dependencies.getD []
  declared.filter (fun dep =>
    !(match lookupA plugins dep with
      | none => false
      | some p => p.loaded))

/-- Result record of `PluginManager.get_plugin_stats`. -/
structure Stats where
  total_plugins : Nat
  loaded_plugins : Nat
  failed_plugins : Nat
  success_rate : String
deriving DecidableEq

/-- Round the non-negative rational `num / den` to the nearest integer, ties
to even. -/
def roundHalfEven (num den : Nat) : Nat :=
  let q := num / den
  let r := num % den
  if den < 2 * r then q + 1
  else if 2 * r < den then q
  else if q % 2 = 1 then q + 1 else q

/-- `⌊log2 n⌋` (0 for `n ≤ 1`), by fuelled structural recursion so that the
kernel can evaluate it (the recursion depth is at most the fuel `n`). -/
def natLog2Aux : Nat → Nat → Nat
  | 0, _ => 0
  | fuel + 1, n => if 2 ≤ n then natLog2Aux fuel (n / 2) + 1 else 0

/-- `⌊log2 n⌋` for `n ≥ 1`. -/
def natLog2 (n : Nat) : Nat := natLog2Aux n n

/-- `⌊log2 (num / den)⌋` for `num, den ≥ 1`: scale `num` by `2^B` with
`2^B > den` so the quotient is at least 1, take the integer log, shift back. -/
def floorLog2Rat (num den : Nat) : Int :=
  let B := natLog2 den + 1
  (natLog2 (num * 2 ^ B / den) : Int) - (B : Int)

/-- Round the non-negative rational `num / den` to the nearest IEEE-754
binary64 value (round-to-nearest, ties-to-even, 53-bit significand),
returned exactly as a pair `(m, e)` with value `m * 2^e`. The subnormal and
overflow regimes (`num/den < 2^(-1022)` or `≥ 2^1024`) are not modelled: the
arguments come from `loaded ≤ total = len(self.plugins)` of an in-memory
list, whose quotient lies in `[0, 1]` and, when nonzero, is at least
`1/total`, far inside the normal range. -/
def roundToFloat (num den : Nat) : Nat × Int :=
  if num = 0 ∨ den = 0 then (0, 0)
  else
    let s : Int := 52 - floorLog2Rat num den
    if 0 ≤ s then (roundHalfEven (num * 2 ^ s.toNat) den, -s)
    else (roundHalfEven num (den * 2 ^ (-s).toNat), -s)

/-- The binary64 value of Python's `loaded/total*100`, as an exact rational
numerator/denominator pair: the int/int true division is correctly rounded to
a double (CPython guarantees this for arbitrary ints), then the
multiplication by 100 rounds again. -/
def floatPercent (loaded total : Nat) : Nat × Nat :=
  let d1 := roundToFloat loaded total
  let q2 : Nat × Nat :=
    if 0 ≤ d1.2 then (d1.1 * 100 * 2 ^ d1.2.toNat, 1)
    else (d1.1 * 100, 2 ^ (-d1.2).toNat)
  let d2 := roundToFloat q2.1 q2.2
  if 0 ≤ d2.2 then (d2.1 * 2 ^ d2.2.toNat, 1) else (d2.1, 2 ^ (-d2.2).toNat)

/-- Python's `f"{(loaded/total*100):.1f}%"` for `total > 0`: the exact value
of the double `loaded/total*100` is rounded to one decimal digit
(round-to-nearest, ties-to-even, as CPython's correctly rounded float
formatting does) and printed. Checked against CPython exhaustively for all
`0 ≤ loaded ≤ total ≤ 800` and on 20000 random pairs with `total < 10^6`. -/
def formatPercent1 (loaded total : Nat) : String :=
  let z := floatPercent loaded total
  let tenths := roundHalfEven (z.1 * 10) z.2
  toString (tenths / 10) ++ "." ++ toString (tenths % 10) ++ "%"

/-- `PluginManager.get_plugin_stats`: counts over the table; the success-rate
string is guarded by `if total > 0`, with the literal `"0%"` otherwise, so
the division is never reached on an empty table. -/
def get_plugin_stats (plugins : Table) : Stats :=
  let total := plugins.length
  let loaded := (plugins.filter (fun x => x.2.loaded)).length
  let errors := (plugins.filter (fun x => x.2.error.isSome)).length
  { total_plugins := total, loaded_plugins := loaded, failed_plugins := errors,
    success_rate := if total > 0 then formatPercent1 loaded total else "0%" }

/-!
## Association-list lemmas
-/

@[simp] theorem lookupA_nil (k : String) : lookupA [] k = none := rfl

@[simp] theorem lookupA_cons (k' : String) (v : PluginInfo) (rest : Table) (k : String) :
    lookupA ((k', v) :: rest) k = if k' = k then some v else lookupA rest k := rfl

@[simp] theorem insertA_nil (k : String) (v : PluginInfo) : insertA [] k v = [(k, v)] := rfl

@[simp] theorem insertA_cons (k' : String) (v' : PluginInfo) (rest : Table)
    (k : String) (v : PluginInfo) :
    insertA ((k', v') :: rest) k v =
      if k' = k then (k, v) :: rest else (k', v') :: insertA rest k v := rfl

theorem lookupA_insertA_self (t : Table) (k : String) (v : PluginInfo) :
    lookupA (insertA t k v) k = some v := by
  induction t with
  | nil => simp
  | cons hd tl ih =>
      obtain ⟨k', v'⟩ := hd
      by_cases h : k' = k <;> simp [h, ih]

theorem lookupA_insertA_ne (t : Table) (k k' : String) (v : PluginInfo) (h : k ≠ k') :
    lookupA (insertA t k v) k' = lookupA t k' := by
  induction t with
  | nil => simp [h]
  | cons hd tl ih =>
      obtain ⟨k₀, v₀⟩ := hd
      by_cases h0 : k₀ = k
      · subst h0
        simp [h, ih]
      · simp [h0, ih]

theorem insertA_insertA_same (t : Table) (k : String) (v w : PluginInfo) :
    insertA (insertA t k v) k w = insertA t k w := by
  induction t with
  | nil => simp
  | cons hd tl ih =>
      obtain ⟨k₀, v₀⟩ := hd
      by_cases h0 : k₀ = k <;> simp [h0, ih]

/-- Overwriting a key with the value it already holds is a no-op (dict
assignment of an equal value). -/
theorem insertA_lookup_eq (t : Table) (k : String) (v : PluginInfo)
    (h : lookupA t k = some v) : insertA t k v = t := by
  induction t with
  | nil => simp at h
  | cons hd tl ih =>
      obtain ⟨k₀, v₀⟩ := hd
      by_cases h0 : k₀ = k
      · subst h0
        simp at h
        simp [h]
      · simp [h0] at h ⊢
        exact ih h

/-- Two writes at distinct keys commute provided the first key is already
present (so neither write order appends it, keeping the layout identical). -/
theorem insertA_comm_of_mem (t : Table) (k k' : String) (v w : PluginInfo)
    (hk : k ∈ keysOf t) (h : k ≠ k') :
    insertA (insertA t k v) k' w = insertA (insertA t k' w) k v := by
  induction t with
  | nil => simp [keysOf] at hk
  | cons hd tl ih =>
      obtain ⟨k₀, v₀⟩ := hd
      by_cases h0 : k₀ = k
      · subst h0
        simp [h, Ne.symm h]
      · by_cases h1 : k₀ = k'
        · subst h1
          simp [h0, Ne.symm h0]
        · have hk' : k ∈ keysOf tl := by
            simp [keysOf] at hk
            rcases hk with hk | hk
            · exact absurd hk.symm h0
            · simpa [keysOf] using hk
          simp [h0, h1, ih hk']

theorem mem_keysOf_insertA_self (t : Table) (k : String) (v : PluginInfo) :
    k ∈ keysOf (insertA t k v) := by
  induction t with
  | nil => simp [keysOf]
  | cons hd tl ih =>
      obtain ⟨k₀, v₀⟩ := hd
      by_cases h0 : k₀ = k
      · simp [keysOf, h0]
      · simp [keysOf, h0] at ih ⊢
        simp [ih]

theorem mem_keysOf_insertA_of_mem (t : Table) (n k : String) (v : PluginInfo)
    (h : n ∈ keysOf t) : n ∈ keysOf (insertA t k v) := by
  induction t with
  | nil => simp [keysOf] at h
  | cons hd tl ih =>
      obtain ⟨k₀, v₀⟩ := hd
      simp [keysOf] at h
      by_cases h0 : k₀ = k
      · subst h0
        rcases h with h | h
        · simp [keysOf, h]
        · simp [keysOf]
          right
          simpa [keysOf] using h
      · rcases h with h | h
        · simp [keysOf, h0, h]
        · have := ih (by simpa [keysOf] using h)
          simp [keysOf, h0]
          right
          simpa [keysOf] using this

theorem lookupA_mem (t : Table) (n : String) (pi : PluginInfo)
    (h : lookupA t n = some pi) : (n, pi) ∈ t := by
  induction t with
  | nil => simp at h
  | cons hd tl ih =>
      obtain ⟨k₀, v₀⟩ := hd
      by_cases h0 : k₀ = n
      · subst h0
        simp at h
        simp [h]
      · simp [h0] at h
        exact List.mem_cons_of_mem _ (ih h)

section InsertFoldLemmas

variable {α : Type} (key : α → String) (val : α → PluginInfo)

@[simp] theorem insFold_nil (t : Table) : insFold key val t [] = t := rfl

@[simp] theorem insFold_cons (t : Table) (x : α) (l : List α) :
    insFold key val t (x :: l) = insFold key val (insStep key val t x) l := rfl

/-- Keys that the loop never writes keep their binding. -/
theorem lookupA_insFold_not_mem (l : List α) (t : Table) (n : String)
    (h : n ∉ l.map key) :
    lookupA (insFold key val t l) n = lookupA t n := by
  induction l generalizing t with
  | nil => rfl
  | cons x xs ih =>
      simp at h
      push_neg at h
      rw [insFold_cons, ih _ (by simpa using h.2),
        insStep, lookupA_insertA_ne _ _ _ _ h.1.symm]

/-- Present keys stay present across the loop. -/
theorem mem_keysOf_insFold_of_mem (l : List α) (t : Table) (n : String)
    (h : n ∈ keysOf t) : n ∈ keysOf (insFold key val t l) := by
  induction l generalizing t with
  | nil => exact h
  | cons x xs ih =>
      exact ih _ (mem_keysOf_insertA_of_mem _ _ _ _ h)

/-- For a key that some loop entry writes, the final binding is the value of
one of the entries carrying that key (the last one). -/
theorem lookupA_insFold_mem (l : List α) (t : Table) (n : String)
    (h : n ∈ l.map key) :
    ∃ x ∈ l, key x = n ∧ lookupA (insFold key val t l) n = some (val x) := by
  induction l generalizing t with
  | nil => simp at h
  | cons x xs ih =>
      by_cases hxs : n ∈ xs.map key
      · obtain ⟨y, hy, hyk, hyl⟩ := ih (insStep key val t x) hxs
        exact ⟨y, List.mem_cons_of_mem _ hy, hyk, hyl⟩
      · have hx : key x = n := by
          rcases List.mem_map.mp h with ⟨a, ha, hak⟩
          rcases List.mem_cons.mp ha with ha | ha
          · rw [← hak, ha]
          · exact absurd (List.mem_map.mpr ⟨a, ha, hak⟩) hxs
        refine ⟨x, List.mem_cons_self _ _, hx, ?_⟩
        rw [insFold_cons, lookupA_insFold_not_mem _ _ _ _ _ hxs, insStep, hx,
          lookupA_insertA_self]

/-- With pairwise-distinct keys, every loop entry's write survives to the
final table. -/
theorem lookupA_insFold_of_nodup (l : List α) (t : Table) (x : α)
    (hx : x ∈ l) (hnd : (l.map key).Nodup) :
    lookupA (insFold key val t l) (key x) = some (val x) := by
  induction l generalizing t with
  | nil => cases hx
  | cons y ys ih =>
      have hnd' : key y ∉ ys.map key ∧ (ys.map key).Nodup :=
        List.nodup_cons.mp (by simpa using hnd)
      rcases List.mem_cons.mp hx with rfl | hx'
      · rw [insFold_cons, lookupA_insFold_not_mem _ _ _ _ _ hnd'.1,
          insStep, lookupA_insertA_self]
      · exact ih (insStep key val t y) hx' hnd'.2

/-- Re-writing a value at a key that is already present and that a later loop
entry overwrites anyway does not change the loop's result. -/
theorem insFold_insertA_overwritten (l : List α) (t : Table) (k : String)
    (v : PluginInfo) (hkt : k ∈ keysOf t) (hkl : k ∈ l.map key) :
    insFold key val (insertA t k v) l = insFold key val t l := by
  induction l generalizing t with
  | nil => simp at hkl
  | cons x xs ih =>
      by_cases hx : key x = k
      · rw [insFold_cons, insFold_cons, insStep, insStep, hx,
          insertA_insertA_same]
      · have hkxs : k ∈ xs.map key := by
          rcases List.mem_map.mp hkl with ⟨a, ha, hak⟩
          rcases List.mem_cons.mp ha with ha | ha
          · exact absurd (by rw [← hak, ha]) hx
          · exact List.mem_map.mpr ⟨a, ha, hak⟩
        rw [insFold_cons, insFold_cons, insStep, insStep,
          insertA_comm_of_mem _ _ _ _ _ hkt (fun he => hx he.symm)]
        exact ih _ (mem_keysOf_insertA_of_mem _ _ _ _ hkt) hkxs

/-- Running the identical write loop on its own output changes nothing. -/
theorem insFold_idem (l : List α) (t : Table) :
    insFold key val (insFold key val t l) l = insFold key val t l := by
  induction l generalizing t with
  | nil => rfl
  | cons x xs ih =>
      rw [insFold_cons, insFold_cons]
      by_cases hxs : key x ∈ xs.map key
      · rw [insStep, insFold_insertA_overwritten]
        · exact ih (insStep key val t x)
        · exact mem_keysOf_insFold_of_mem _ _ _ _ _
            (by rw [insStep]; exact mem_keysOf_insertA_self _ _ _)
        · exact hxs
      · have hlook : lookupA (insFold key val (insStep key val t x) xs) (key x) =
            some (val x) := by
          rw [lookupA_insFold_not_mem _ _ _ _ _ hxs, insStep, lookupA_insertA_self]
        rw [insStep, insertA_lookup_eq _ _ _ hlook]
        exact ih (insStep key val t x)

end InsertFoldLemmas

theorem discover_plugins_eq_insFold (plugins : Table) (found : List DiscoveredEntry) :
    discover_plugins plugins found =
      insFold DiscoveredEntry.name
        (fun e => mkPluginInfo e.name e.modPath e.metadata) plugins found := rfl

theorem load_registry_eq_insFold (plugins : Table)
    (entries : List (String × SavedPlugin)) :
    load_registry plugins (some entries) =
      insFold Prod.fst (fun x => restore_plugin x.2) plugins entries := rfl

/-!
## Claim theorems
-/

/-- C7: `checkDependencies(name)` returns the empty list when the name is
unknown or declares no dependencies, and otherwise exactly the subset of its
declared dependency names that are absent from the table or present but not
loaded, without walking dependencies transitively — that is,
`check_dependencies` coincides with the specification-side
`check_dependencies_spec`. -/
theorem C7_check_dependencies (plugins : Table) (plugin_name : String) :
    check_dependencies plugins plugin_name =
      check_dependencies_spec plugins plugin_name := by
  unfold check_dependencies check_dependencies_spec
  cases h : lookupA plugins plugin_name with
  | none => rfl
  | some pi =>
      dsimp only
      cases hd : pi.metadata.dependencies with
      | none => rfl
      | some deps =>
          cases deps with
          | nil => rfl
          | cons d ds =>
              dsimp only [Option.getD]
              apply List.filter_congr
              intro dep _
              cases lookupA plugins dep <;> rfl

/-- C8: `stats()` on the empty table is `total = loaded = failed = 0` with the
literal zero-percent value `"0%"`; whenever `total = 0` the success rate is
that literal (the guarded branch, so the division by `total` is never taken),
and whenever `total > 0` it is `loaded/total` as a percentage string with one
decimal place (`formatPercent1`, the bit-faithful model of Python's
`f"{(loaded/total*100):.1f}%"`: the int/int division and the multiplication
by 100 are each rounded to binary64 and the double's exact value is then
correctly rounded to one decimal digit). -/
theorem C8_get_plugin_stats (plugins : Table) :
    get_plugin_stats [] = ⟨0, 0, 0, "0%"⟩ ∧
    ((get_plugin_stats plugins).total_plugins = 0 →
      (get_plugin_stats plugins).success_rate = "0%") ∧
    (0 < (get_plugin_stats plugins).total_plugins →
      (get_plugin_stats plugins).success_rate =
        formatPercent1 (get_plugin_stats plugins).loaded_plugins
          (get_plugin_stats plugins).total_plugins) := by
  refine ⟨rfl, ?_, ?_⟩
  · intro h
    simp only [get_plugin_stats] at h ⊢
    simp [h]
  · intro h
    simp only [get_plugin_stats] at h ⊢
    simp [h]

/-- Witness for C8 at a one-entry table: the `total > 0` branch is inhabited
and yields the formatted percentage. -/
theorem C8_get_plugin_stats_witness :
    0 < (get_plugin_stats [("alpha", mkPluginInfo "alpha" "bot.cogs.alpha"
        Metadata.empty)]).total_plugins ∧
    (get_plugin_stats [("alpha", mkPluginInfo "alpha" "bot.cogs.alpha"
        Metadata.empty)]).success_rate =
      formatPercent1
        (get_plugin_stats [("alpha", mkPluginInfo "alpha" "bot.cogs.alpha"
          Metadata.empty)]).loaded_plugins
        (get_plugin_stats [("alpha", mkPluginInfo "alpha" "bot.cogs.alpha"
          Metadata.empty)]).total_plugins :=
  ⟨by decide,
    (C8_get_plugin_stats [("alpha", mkPluginInfo "alpha" "bot.cogs.alpha"
      Metadata.empty)]).2.2 (by decide)⟩

/-- C9: metadata extraction is a total function of the read outcome (so it
never raises); a failed read yields the empty metadata; the result depends
only on the first 50 lines; a line recognized by none of the six prefixes
leaves the metadata dictionary untouched; and a line whose stripped form
reaches the `# Dependencies:` branch (the earlier prefixes fail, this one
matches) stores the comma-split, entry-trimmed, empty-entry-dropped ordered
list of names. -/
theorem C9_load_plugin_metadata :
    load_plugin_metadata none = Metadata.empty ∧
    (∀ c₁ c₂ : String,
      (splitChar '\n' c₁).take 50 = (splitChar '\n' c₂).take 50 →
      load_plugin_metadata (some c₁) = load_plugin_metadata (some c₂)) ∧
    (∀ (md : Metadata) (raw : String), recognizedLine raw = false →
      processLine md raw = md) ∧
    (∀ (md : Metadata) (raw : String),
      pyStartsWith (pyStrip raw) "# Plugin:" = false →
      pyStartsWith (pyStrip raw) "# Version:" = false →
      pyStartsWith (pyStrip raw) "# Author:" = false →
      pyStartsWith (pyStrip raw) "# Description:" = false →
      pyStartsWith (pyStrip raw) "# Dependencies:" = true →
      (processLine md raw).dependencies =
        some (((splitChar ','
            (pyStrip (pyDrop (pyStrip raw) "# Dependencies:".length))).map
          pyStrip).filter (fun d => d ≠ ""))) := by
  refine ⟨rfl, ?_, ?_, ?_⟩
  · intro c₁ c₂ h
    simp only [load_plugin_metadata]
    rw [h]
  · intro md raw h
    unfold recognizedLine at h
    simp only [Bool.or_eq_false_iff] at h
    obtain ⟨⟨⟨⟨⟨h1, h2⟩, h3⟩, h4⟩, h5⟩, h6⟩ := h
    unfold processLine
    simp [h1, h2, h3, h4, h5, h6]
  · intro md raw h1 h2 h3 h4 h5
    unfold processLine
    simp [h1, h2, h3, h4, h5]

/-- Witness for C9: an unrecognized line is ignored, and a concrete
`# Dependencies:` line is split, trimmed and filtered. -/
theorem C9_load_plugin_metadata_witness :
    recognizedLine "import discord" = false ∧
    processLine Metadata.empty "import discord" = Metadata.empty ∧
    (processLine Metadata.empty "# Dependencies: alpha, ,beta").dependencies =
      some ["alpha", "beta"] := by
  refine ⟨by decide, ?_, ?_⟩
  · exact C9_load_plugin_metadata.2.2.1 Metadata.empty "import discord" (by decide)
  · exact (C9_load_plugin_metadata.2.2.2 Metadata.empty
      "# Dependencies: alpha, ,beta" (by decide) (by decide) (by decide)
      (by decide) (by decide)).trans (by decide)

/-- C10: `load(name)` with the reload flag on a loaded descriptor discards
the intermediate unload's boolean: even when the HostRuntime deactivation
raises, the activation is still attempted, and on activation success the
final descriptor is loaded with a fresh load time and a cleared error (the
deactivation failure recorded by the inner unload is overwritten). -/
theorem C10_load_reload_discards_unload_failure (plugins : Table)
    (plugin_name : String) (pi : PluginInfo) (e : String) (now : Nat)
    (h : lookupA plugins plugin_name = some pi) (hld : pi.loaded = true) :
    load_plugin plugins plugin_name true (some e) none now =
      ⟨insertA plugins plugin_name
          { pi with loaded := true, load_time := some now, error := none },
        true, true⟩ := by
  unfold load_plugin unload_plugin
  rw [h]
  simp only [hld, Bool.and_self, if_true, lookupA_insertA_self,
    insertA_insertA_same]

/-- Witness for C10: concrete failed deactivation followed by a successful
activation ends loaded with the new load time and no error. -/
theorem C10_load_reload_discards_unload_failure_witness :
    load_plugin
        [("alpha", ⟨"alpha", "bot.cogs.alpha", Metadata.empty, true, some 3, none⟩)]
        "alpha" true (some "unload boom") none 7 =
      ⟨[("alpha", ⟨"alpha", "bot.cogs.alpha", Metadata.empty, true, some 7, none⟩)],
        true, true⟩ :=
  (C10_load_reload_discards_unload_failure
      [("alpha", ⟨"alpha", "bot.cogs.alpha", Metadata.empty, true, some 3, none⟩)]
      "alpha" ⟨"alpha", "bot.cogs.alpha", Metadata.empty, true, some 3, none⟩
      "unload boom" 7 (by decide) (by decide)).trans (by decide)

/-- C1 counterexample: rediscovering a known name does not preserve
`loaded`/`loadTime`/`error`. The table holds `alpha` with `loaded = true`,
`load_time = 5`, `error = "old"`; after one `discover` pass over the same
file the descriptor's three status fields are reset to
`false`/`none`/`none`, contradicting the claimed preservation. -/
theorem C1_discover_counterexample :
    lookupA (discover_plugins
        [("alpha", ⟨"alpha", "bot.cogs.alpha", Metadata.empty, true, some 5, some "old"⟩)]
        [⟨"alpha", "bot.cogs.alpha", Metadata.empty⟩]) "alpha" =
      some ⟨"alpha", "bot.cogs.alpha", Metadata.empty, false, none, none⟩ := by
  decide

/-- C1 amended: `discover` overwrites the whole descriptor for every
discovered name — `loaded`, `loadTime` and `error` are reset to the
fresh-descriptor defaults, not preserved. Two consecutive `discover` passes
over an unchanged scan result still yield an identical table (each entry is
rewritten with the same freshly reset descriptor). -/
theorem C1_discover_amended (t : Table) (found : List DiscoveredEntry)
    (n : String) (h : n ∈ found.map DiscoveredEntry.name) :
    discover_plugins (discover_plugins t found) found = discover_plugins t found ∧
    ∃ pi, lookupA (discover_plugins t found) n = some pi ∧
      pi.loaded = false ∧ pi.load_time = none ∧ pi.error = none := by
  constructor
  · simp only [discover_plugins_eq_insFold]
    exact insFold_idem _ _ found t
  · obtain ⟨x, _, _, hl⟩ := lookupA_insFold_mem DiscoveredEntry.name
      (fun e => mkPluginInfo e.name e.modPath e.metadata) found t n h
    rw [discover_plugins_eq_insFold]
    exact ⟨_, hl, rfl, rfl, rfl⟩

/-- Witness for C1 amended at a one-file scan over the empty table. -/
theorem C1_discover_amended_witness :
    discover_plugins
        (discover_plugins [] [⟨"alpha", "bot.cogs.alpha", Metadata.empty⟩])
        [⟨"alpha", "bot.cogs.alpha", Metadata.empty⟩] =
      discover_plugins [] [⟨"alpha", "bot.cogs.alpha", Metadata.empty⟩] ∧
    ∃ pi, lookupA (discover_plugins []
        [⟨"alpha", "bot.cogs.alpha", Metadata.empty⟩]) "alpha" = some pi ∧
      pi.loaded = false ∧ pi.load_time = none ∧ pi.error = none :=
  C1_discover_amended [] [⟨"alpha", "bot.cogs.alpha", Metadata.empty⟩] "alpha"
    (by decide)

/-- C2 counterexample: a failed reload of a loaded plugin leaves
`loaded = true` together with a populated `error` — the `except` block of
`reload_plugin` assigns only `error`, never `loaded = False`. -/
theorem C2_reload_counterexample :
    reload_plugin
        [("alpha", ⟨"alpha", "bot.cogs.alpha", Metadata.empty, true, some 5, none⟩)]
        "alpha" (some "boom") 9 =
      ⟨[("alpha", ⟨"alpha", "bot.cogs.alpha", Metadata.empty, true, some 5, some "boom"⟩)],
        false, false⟩ := by
  decide

/-- C2 amended: when the HostRuntime reload primitive raises, `reload(name)`
on a known name stores the error and returns false, but leaves `loaded`
unchanged — a previously loaded descriptor therefore ends with
`loaded = true` and a populated `error` (and the registry is not saved). -/
theorem C2_reload_amended (plugins : Table) (plugin_name : String)
    (pi : PluginInfo) (e : String) (now : Nat)
    (h : lookupA plugins plugin_name = some pi) :
    reload_plugin plugins plugin_name (some e) now =
      ⟨insertA plugins plugin_name { pi with error := some e }, false, false⟩ ∧
    ({ pi with error := some e } : PluginInfo).loaded = pi.loaded := by
  refine ⟨?_, rfl⟩
  unfold reload_plugin
  rw [h]

/-- Witness for C2 amended at a loaded concrete descriptor. -/
theorem C2_reload_amended_witness :
    reload_plugin
        [("alpha", ⟨"alpha", "bot.cogs.alpha", Metadata.empty, true, some 5, none⟩)]
        "alpha" (some "boom") 9 =
      ⟨insertA
          [("alpha", ⟨"alpha", "bot.cogs.alpha", Metadata.empty, true, some 5, none⟩)]
          "alpha"
          { (⟨"alpha", "bot.cogs.alpha", Metadata.empty, true, some 5, none⟩ : PluginInfo)
            with error := some "boom" },
        false, false⟩ ∧
    ({ (⟨"alpha", "bot.cogs.alpha", Metadata.empty, true, some 5, none⟩ : PluginInfo)
        with error := some "boom" } : PluginInfo).loaded =
      (⟨"alpha", "bot.cogs.alpha", Metadata.empty, true, some 5, none⟩ : PluginInfo).loaded :=
  C2_reload_amended
    [("alpha", ⟨"alpha", "bot.cogs.alpha", Metadata.empty, true, some 5, none⟩)]
    "alpha" ⟨"alpha", "bot.cogs.alpha", Metadata.empty, true, some 5, none⟩
    "boom" 9 (by decide)

/-- C3 counterexample: the persisted `error` text is not restored. A
descriptor saved with `error = "boom"` comes back from the registry
round trip with `error = none` (while `name`, `modulePath`, `metadata` and
`loadTime` survive and `loaded` is forced to false). -/
theorem C3_registry_counterexample :
    lookupA (load_registry [] (some (save_registry_data
        [("alpha", ⟨"alpha", "bot.cogs.alpha", Metadata.empty, false, some 5, some "boom"⟩)])))
      "alpha" =
      some ⟨"alpha", "bot.cogs.alpha", Metadata.empty, false, some 5, none⟩ := by
  decide

/-- C3 amended: saving the registry and loading it into a fresh manager
yields, for every name of the (duplicate-free) table, a descriptor with
identical `name`, `modulePath`, `metadata` and `loadTime`, with `loaded`
forced to false — and with `error` reset to `none` (`load_registry` never
reads the persisted error text). -/
theorem C3_registry_roundtrip_amended (table : Table) (n : String)
    (pi : PluginInfo) (hnd : (keysOf table).Nodup)
    (h : lookupA table n = some pi) :
    lookupA (load_registry [] (some (save_registry_data table))) n =
      some { pi with loaded := false, error := none } := by
  have hmem : (n, to_dict pi) ∈ save_registry_data table :=
    List.mem_map.mpr ⟨(n, pi), lookupA_mem table n pi h, rfl⟩
  have hkeys : (save_registry_data table).map Prod.fst = keysOf table := by
    unfold save_registry_data keysOf
    rw [List.map_map]
    rfl
  have hres := lookupA_insFold_of_nodup Prod.fst (fun x => restore_plugin x.2)
    (save_registry_data table) [] (n, to_dict pi) hmem (by rw [hkeys]; exact hnd)
  rw [load_registry_eq_insFold]
  exact hres

/-- Witness for C3 amended at a one-entry table carrying an error text. -/
theorem C3_registry_roundtrip_amended_witness :
    lookupA (load_registry [] (some (save_registry_data
        [("alpha", ⟨"alpha", "bot.cogs.alpha", Metadata.empty, true, some 5, some "boom"⟩)])))
      "alpha" =
      some { (⟨"alpha", "bot.cogs.alpha", Metadata.empty, true, some 5, some "boom"⟩ : PluginInfo)
        with loaded := false, error := none } :=
  C3_registry_roundtrip_amended
    [("alpha", ⟨"alpha", "bot.cogs.alpha", Metadata.empty, true, some 5, some "boom"⟩)]
    "alpha" ⟨"alpha", "bot.cogs.alpha", Metadata.empty, true, some 5, some "boom"⟩
    (by decide) (by decide)

/-- C4 counterexample: when the activation raises, `load_plugin` sets
`loaded = false`, stores the error and returns false, but the result's
`saved` flag is `false`: `save_registry` is called only on the success path,
so the registry is not persisted — contradicting the claimed persistence. -/
theorem C4_load_failure_counterexample :
    load_plugin
        [("alpha", ⟨"alpha", "bot.cogs.alpha", Metadata.empty, false, none, none⟩)]
        "alpha" false none (some "boom") 9 =
      ⟨[("alpha", ⟨"alpha", "bot.cogs.alpha", Metadata.empty, false, none, some "boom"⟩)],
        false, false⟩ := by
  decide

/-- C4 amended: for every known name, when the activation attempt raises
(`reload` flag off), `load(name)` sets `loaded = false`, stores the error and
returns false — and does not persist the registry. -/
theorem C4_load_failure_amended (plugins : Table) (plugin_name : String)
    (pi : PluginInfo) (hU : Option String) (e : String) (now : Nat)
    (h : lookupA plugins plugin_name = some pi) :
    load_plugin plugins plugin_name false hU (some e) now =
      ⟨insertA plugins plugin_name { pi with loaded := false, error := some e },
        false, false⟩ := by
  unfold load_plugin
  rw [h]
  simp only [Bool.false_and, Bool.false_eq_true, if_false, h]

/-- Witness for C4 amended at a concrete never-loaded descriptor. -/
theorem C4_load_failure_amended_witness :
    load_plugin
        [("alpha", ⟨"alpha", "bot.cogs.alpha", Metadata.empty, false, none, none⟩)]
        "alpha" false none (some "boom") 9 =
      ⟨insertA
          [("alpha", ⟨"alpha", "bot.cogs.alpha", Metadata.empty, false, none, none⟩)]
          "alpha"
          { (⟨"alpha", "bot.cogs.alpha", Metadata.empty, false, none, none⟩ : PluginInfo)
            with loaded := false, error := some "boom" },
        false, false⟩ :=
  C4_load_failure_amended
    [("alpha", ⟨"alpha", "bot.cogs.alpha", Metadata.empty, false, none, none⟩)]
    "alpha" ⟨"alpha", "bot.cogs.alpha", Metadata.empty, false, none, none⟩
    none "boom" 9 (by decide)

/-- C5 counterexample: `load(name)` on an already-loaded descriptor (outside
`reload`) is not side-effect free. The activation is attempted anyway; when
the HostRuntime raises (as `load_extension` does for an already-loaded
extension), the call returns false but flips `loaded` to `false` and
populates `error` — both fields change. -/
theorem C5_load_already_loaded_counterexample :
    load_plugin
        [("alpha", ⟨"alpha", "bot.cogs.alpha", Metadata.empty, true, some 5, none⟩)]
        "alpha" false none (some "AlreadyLoaded") 9 =
      ⟨[("alpha",
          ⟨"alpha", "bot.cogs.alpha", Metadata.empty, false, some 5, some "AlreadyLoaded"⟩)],
        false, false⟩ := by
  decide

/-- C5 amended: there is no already-loaded guard. `load(name)` on a loaded
descriptor with the `reload` flag off performs the activation attempt: if
the HostRuntime raises it returns false with `loaded := false` and the error
stored; if the HostRuntime completes it returns true and resets `loadTime`
to the current time. Either way the call has side effects. -/
theorem C5_load_already_loaded_amended (plugins : Table) (plugin_name : String)
    (pi : PluginInfo) (e : String) (now : Nat)
    (h : lookupA plugins plugin_name = some pi) (_hld : pi.loaded = true) :
    load_plugin plugins plugin_name false none (some e) now =
      ⟨insertA plugins plugin_name { pi with loaded := false, error := some e },
        false, false⟩ ∧
    load_plugin plugins plugin_name false none none now =
      ⟨insertA plugins plugin_name
          { pi with loaded := true, load_time := some now, error := none },
        true, true⟩ := by
  constructor
  · unfold load_plugin
    rw [h]
    simp only [Bool.false_and, Bool.false_eq_true, if_false, h]
  · unfold load_plugin
    rw [h]
    simp only [Bool.false_and, Bool.false_eq_true, if_false, h]

/-- Witness for C5 amended at a concrete loaded descriptor. -/
theorem C5_load_already_loaded_amended_witness :
    load_plugin
        [("alpha", ⟨"alpha", "bot.cogs.alpha", Metadata.empty, true, some 5, none⟩)]
        "alpha" false none (some "AlreadyLoaded") 9 =
      ⟨insertA
          [("alpha", ⟨"alpha", "bot.cogs.alpha", Metadata.empty, true, some 5, none⟩)]
          "alpha"
          { (⟨"alpha", "bot.cogs.alpha", Metadata.empty, true, some 5, none⟩ : PluginInfo)
            with loaded := false, error := some "AlreadyLoaded" },
        false, false⟩ ∧
    load_plugin
        [("alpha", ⟨"alpha", "bot.cogs.alpha", Metadata.empty, true, some 5, none⟩)]
        "alpha" false none none 9 =
      ⟨insertA
          [("alpha", ⟨"alpha", "bot.cogs.alpha", Metadata.empty, true, some 5, none⟩)]
          "alpha"
          { (⟨"alpha", "bot.cogs.alpha", Metadata.empty, true, some 5, none⟩ : PluginInfo)
            with loaded := true, load_time := some 9, error := none },
        true, true⟩ :=
  C5_load_already_loaded_amended
    [("alpha", ⟨"alpha", "bot.cogs.alpha", Metadata.empty, true, some 5, none⟩)]
    "alpha" ⟨"alpha", "bot.cogs.alpha", Metadata.empty, true, some 5, none⟩
    "AlreadyLoaded" 9 (by decide) (by decide)

/-- C6 counterexample: `unload(name)` on a not-loaded descriptor does not
leave it unchanged. The deactivation is attempted anyway; when the
HostRuntime raises (as `unload_extension` does for a never-loaded
extension), the call returns false but writes the exception into the
descriptor's `error` field. -/
theorem C6_unload_not_loaded_counterexample :
    unload_plugin
        [("alpha", ⟨"alpha", "bot.cogs.alpha", Metadata.empty, false, none, none⟩)]
        "alpha" (some "ExtensionNotLoaded") =
      ⟨[("alpha",
          ⟨"alpha", "bot.cogs.alpha", Metadata.empty, false, none,
            some "ExtensionNotLoaded"⟩)],
        false, false⟩ := by
  decide

/-- C6 amended: there is no `loaded` guard. `unload(name)` on a not-loaded
known descriptor attempts the deactivation; when the HostRuntime raises, the
call returns false and mutates exactly the descriptor's `error` field
(`loaded` and `loadTime` keep their values), without saving the registry. -/
theorem C6_unload_not_loaded_amended (plugins : Table) (plugin_name : String)
    (pi : PluginInfo) (e : String)
    (h : lookupA plugins plugin_name = some pi) (_hld : pi.loaded = false) :
    unload_plugin plugins plugin_name (some e) =
      ⟨insertA plugins plugin_name { pi with error := some e }, false, false⟩ := by
  unfold unload_plugin
  rw [h]

/-- Witness for C6 amended at a concrete never-loaded descriptor. -/
theorem C6_unload_not_loaded_amended_witness :
    unload_plugin
        [("alpha", ⟨"alpha", "bot.cogs.alpha", Metadata.empty, false, none, none⟩)]
        "alpha" (some "ExtensionNotLoaded") =
      ⟨insertA
          [("alpha", ⟨"alpha", "bot.cogs.alpha", Metadata.empty, false, none, none⟩)]
          "alpha"
          { (⟨"alpha", "bot.cogs.alpha", Metadata.empty, false, none, none⟩ : PluginInfo)
            with error := some "ExtensionNotLoaded" },
        false, false⟩ :=
  C6_unload_not_loaded_amended
    [("alpha", ⟨"alpha", "bot.cogs.alpha", Metadata.empty, false, none, none⟩)]
    "alpha" ⟨"alpha", "bot.cogs.alpha", Metadata.empty, false, none, none⟩
    "ExtensionNotLoaded" (by decide) (by decide)

end DarkraiBot
